import Mathlib

/-!
Verification of the aws-audit-mcp-server repository (TypeScript) against its
natural-language specification.  The TypeScript/JavaScript sources are shallowly
embedded: JS strings are modelled as `List Char` (one entry per UTF-16 code
unit; all inputs considered here stay in the BMP, where the two views agree),
JS numbers appearing as integer indices/lengths are modelled as `Int`, and each
source function becomes a total Lean function with the same branch structure.
Network calls (`fetch`) are external collaborators: a handler that performs one
fetch is modelled as a function of the fetch's outcome, so "performs no fetch"
is expressed as independence from that outcome argument.
-/

/-- A JavaScript string, viewed as its list of characters. -/
abbrev JSStr := List Char

namespace Utils
/-! ## src/mcp_server/src/utils.ts -/

/-- ECMAScript `String.prototype.slice(start, end)` index normalisation and
extraction, for a string `s` and integer arguments (negative values count from
the end of the string; the result is empty when the normalised end does not
exceed the normalised start). -/
def jsSlice (s : JSStr) (start stop : Int) : JSStr :=
  let len : Int := s.length
  let f : Int := if start < 0 then max (len + start) 0 else min start len
  let t : Int := if stop < 0 then max (len + stop) 0 else min stop len
  if t ≤ f then [] else (s.drop f.toNat).take (t - f).toNat

/-- The fixed message `formatDocumentationResult` produces when no content can
be returned (utils.ts line 217 and line 225). -/
def noMoreContentMessage (url : JSStr) : JSStr :=
  "AWS Documentation from ".toList ++ url ++ ":\n\n<e>No more content available.</e>".toList

/-- The header prefixed to every returned slice (utils.ts line 231). -/
def docHeader (url : JSStr) : JSStr :=
  "AWS Documentation from ".toList ++ url ++ ":\n\n".toList

/-- The continuation notice appended when content remains (utils.ts line 236),
carrying the next `start_index` value. -/
def truncationNotice (nextStart : Int) : JSStr :=
  "\n\n<e>Content truncated. Call the read_documentation tool with start_index=".toList
    ++ (toString nextStart).toList ++ " to get more content.</e>".toList

/-- utils.ts `formatDocumentationResult(url, content, startIndex, maxLength)`:
the Pagination Formatter.  Mirrors the source line by line: the early return
for `startIndex >= originalLength`, the `Math.min` end-index computation, the
`content.slice(startIndex, endIndex)` call, the falsy-slice early return, and
the conditional continuation notice. -/
def formatDocumentationResult (url content : JSStr) (startIndex maxLength : Int) : JSStr :=
  let originalLength : Int := content.length
  if originalLength ≤ startIndex then noMoreContentMessage url
  else
    let endIndex : Int := min (startIndex + maxLength) originalLength
    let truncatedContent := jsSlice content startIndex endIndex
    if truncatedContent = [] then noMoreContentMessage url
    else
      let actualContentLength : Int := truncatedContent.length
      let remainingContent : Int := originalLength - (startIndex + actualContentLength)
      let result := docHeader url ++ truncatedContent
      if 0 < remainingContent then result ++ truncationNotice (startIndex + actualContentLength)
      else result

/-- The sliced content portion `formatDocumentationResult` embeds in its output
for an in-range `startIndex` (the `truncatedContent` of utils.ts line 222). -/
def paginationSlice (content : JSStr) (startIndex maxLength : Int) : JSStr :=
  jsSlice content startIndex (min (startIndex + maxLength) content.length)

/-- Repeated pagination: starting from `s`, take the slice the formatter would
return, advance `startIndex` by that slice's length, and continue while content
remains.  `fuel` bounds the recursion; `content.length` steps always suffice
for a positive `maxLength`. -/
def paginate (content : JSStr) (maxLength : Int) (s : Nat) : Nat → List JSStr
  | 0 => []
  | fuel + 1 =>
    if s < content.length then
      let sl := paginationSlice content s maxLength
      sl :: paginate content maxLength (s + sl.length) fuel
    else []

end Utils

/-! ## JavaScript string builtins used by the sources -/

/-- JS `String.prototype.includes`: helper scanning the haystack. -/
def jsIncludesAux (needle : JSStr) : JSStr → Bool
  | [] => needle.isPrefixOf []
  | c :: t => needle.isPrefixOf (c :: t) || jsIncludesAux needle t

/-- JS `hay.includes(needle)`: substring containment. -/
def jsIncludes (hay needle : JSStr) : Bool := jsIncludesAux needle hay

/-- Case-insensitive character comparison (the regex `/i` flag). -/
def ciChar (a b : Char) : Bool := a.toLower == b.toLower

/-- Case-insensitive "pattern begins here" test. -/
def ciStarts : JSStr → JSStr → Bool
  | [], _ => true
  | _ :: _, [] => false
  | p :: ps, c :: cs => ciChar p c && ciStarts ps cs

/-- Case-insensitive substring containment: helper. -/
def ciIncludesAux (needle : JSStr) : JSStr → Bool
  | [] => ciStarts needle []
  | c :: t => ciStarts needle (c :: t) || ciIncludesAux needle t

/-- Case-insensitive substring containment. -/
def ciIncludes (hay needle : JSStr) : Bool := ciIncludesAux needle hay

/-- JS `x || d` for an optional string `x`: the empty string is falsy. -/
def jsOrStr (o : Option JSStr) (d : JSStr) : JSStr :=
  match o with
  | some s => if s = [] then d else s
  | none => d

/-- JS `x || undefined` / `x || null` for an optional string `x`. -/
def jsOrUndef (o : Option JSStr) : Option JSStr :=
  match o with
  | some s => if s = [] then none else some s
  | none => none

/-- The characters the JS `\s` class and `String.prototype.trim` treat as
whitespace (restricted to the ASCII range used by these sources). -/
def jsIsSpace (c : Char) : Bool :=
  c == ' ' || c == '\t' || c == '\n' || c == '\r' || c == Char.ofNat 11 || c == Char.ofNat 12

/-- JS `String.prototype.trim`. -/
def jsTrim (s : JSStr) : JSStr :=
  ((s.dropWhile jsIsSpace).reverse.dropWhile jsIsSpace).reverse

namespace Utils
/-! ## utils.ts — the regex-based Content Extractor (`extractWithRegex`)

The source applies a fixed sequence of `String.prototype.replace` calls with
regex patterns of the shape `<open[^>]*>(.*?)</close>`.  A small generic engine
models them: `openM` recognises an opening pattern at the current position
(returning the number of characters it consumes plus any captured data),
`scanClose` performs the lazy `(.*?)` scan up to the first position where the
closing pattern matches (`dotAll = false` forbids the lazy part to cross a
newline, modelling the absence of the `/s` flag), `build` produces the
replacement text, and a failed match advances one character, as a global regex
replace does.  All recursion is fuel-bounded (one unit per character) so every
function is total. -/

/-- Lazy scan for the first match of `closeM`; returns the skipped inner text
and the remainder after the close pattern. -/
def scanClose (closeM : JSStr → Option Nat) (dotAll : Bool) : Nat → JSStr → Option (JSStr × JSStr)
  | 0, _ => none
  | fuel + 1, s =>
    match closeM s with
    | some clen => some ([], s.drop clen)
    | none =>
      match s with
      | [] => none
      | c :: t =>
        if !dotAll && c == '\n' then none
        else
          match scanClose closeM dotAll fuel t with
          | some (inner, after) => some (c :: inner, after)
          | none => none

/-- Global replace of `open ... close` blocks (one fuel unit per step). -/
def replaceBlocks {A : Type} (openM : JSStr → Option (Nat × A))
    (closeM : A → JSStr → Option Nat) (build : A → JSStr → JSStr) (dotAll : Bool) :
    Nat → JSStr → JSStr
  | 0, s => s
  | fuel + 1, s =>
    match s with
    | [] => []
    | c :: t =>
      match openM s with
      | some (olen, a) =>
        match scanClose (closeM a) dotAll s.length (s.drop olen) with
        | some (inner, after) => build a inner ++ replaceBlocks openM closeM build dotAll fuel after
        | none => c :: replaceBlocks openM closeM build dotAll fuel t
      | none => c :: replaceBlocks openM closeM build dotAll fuel t

/-- Run `replaceBlocks` with sufficient fuel. -/
def runReplace {A : Type} (openM : JSStr → Option (Nat × A))
    (closeM : A → JSStr → Option Nat) (build : A → JSStr → JSStr) (dotAll : Bool)
    (s : JSStr) : JSStr :=
  replaceBlocks openM closeM build dotAll (s.length + 1) s

/-- Opening pattern `lit[^>]*>` (e.g. `lit = "<script"`): the literal, then
anything up to the first `>`. -/
def openTagLen (lit : JSStr) (s : JSStr) : Option Nat :=
  if ciStarts lit s then
    match (s.drop lit.length).findIdx? (fun c => c == '>') with
    | some j => some (lit.length + j + 1)
    | none => none
  else none

/-- A fixed literal pattern (case-insensitive). -/
def matchLit (lit : JSStr) (s : JSStr) : Option Nat :=
  if ciStarts lit s then some lit.length else none

/-- Global replace of `openLit[^>]*>(.*?)closeL` by `build` of the inner text. -/
def replaceTagBlocks (openLit closeL : JSStr) (build : JSStr → JSStr) (dotAll : Bool)
    (s : JSStr) : JSStr :=
  runReplace (fun u => (openTagLen openLit u).map (fun n => (n, ())))
    (fun _ => matchLit closeL) (fun _ inner => build inner) dotAll s

/-- Global replace of an opening pattern alone (no inner/close part). -/
def replaceOpenTags (openM : JSStr → Option Nat) (repl : JSStr) : Nat → JSStr → JSStr
  | 0, s => s
  | _ + 1, [] => []
  | fuel + 1, c :: t =>
    match openM (c :: t) with
    | some olen => repl ++ replaceOpenTags openM repl fuel ((c :: t).drop olen)
    | none => c :: replaceOpenTags openM repl fuel t

/-- Run `replaceOpenTags` with sufficient fuel. -/
def runReplaceOpen (openM : JSStr → Option Nat) (repl : JSStr) (s : JSStr) : JSStr :=
  replaceOpenTags openM repl (s.length + 1) s

/-- `.replace(/<[^>]*>/g, repl)`: strip the remaining HTML tags. -/
def stripTagsWith (repl : JSStr) : Nat → JSStr → JSStr
  | 0, s => s
  | _ + 1, [] => []
  | fuel + 1, c :: t =>
    if c == '<' then
      match t.findIdx? (fun d => d == '>') with
      | some j => repl ++ stripTagsWith repl fuel (t.drop (j + 1))
      | none => c :: stripTagsWith repl fuel t
    else c :: stripTagsWith repl fuel t

/-- Strip tags with sufficient fuel. -/
def stripTags (repl : JSStr) (s : JSStr) : JSStr := stripTagsWith repl (s.length + 1) s

/-- `.replace(/\s+/g, ' ')`: helper. -/
def collapseWsAux : Nat → JSStr → JSStr
  | 0, s => s
  | _ + 1, [] => []
  | fuel + 1, c :: t =>
    if jsIsSpace c then ' ' :: collapseWsAux fuel (t.dropWhile jsIsSpace)
    else c :: collapseWsAux fuel t

/-- `.replace(/\s+/g, ' ')`: collapse every whitespace run to one space. -/
def collapseWs (s : JSStr) : JSStr := collapseWsAux (s.length + 1) s

/-- `.replace(/\n\s+/g, '\n')`: helper. -/
def collapseNlWsAux : Nat → JSStr → JSStr
  | 0, s => s
  | _ + 1, [] => []
  | fuel + 1, c :: t =>
    if c == '\n' && (match t with | d :: _ => jsIsSpace d | [] => false) then
      '\n' :: collapseNlWsAux fuel (t.dropWhile jsIsSpace)
    else c :: collapseNlWsAux fuel t

/-- `.replace(/\n\s+/g, '\n')`. -/
def collapseNlWs (s : JSStr) : JSStr := collapseNlWsAux (s.length + 1) s

/-- `.replace(/\n\s*\n\s*\n/g, '\n\n')`: helper.  A match starts at a newline
whose following whitespace run contains at least two more newlines; the greedy
`\s*` parts make the match end at the last newline of that run. -/
def collapseTripleNlAux : Nat → JSStr → JSStr
  | 0, s => s
  | _ + 1, [] => []
  | fuel + 1, c :: t =>
    if c == '\n' && decide (2 ≤ ((t.takeWhile jsIsSpace).count '\n')) then
      '\n' :: '\n' :: collapseTripleNlAux fuel
        ((((t.takeWhile jsIsSpace).reverse.takeWhile (fun d => d != '\n')).reverse)
          ++ t.drop (t.takeWhile jsIsSpace).length)
    else c :: collapseTripleNlAux fuel t

/-- `.replace(/\n\s*\n\s*\n/g, '\n\n')`. -/
def collapseTripleNl (s : JSStr) : JSStr := collapseTripleNlAux (s.length + 1) s

/-- Match `["']([^"']*)["']` at the current position: a quote, a capture free
of quote characters, and a closing quote (either kind, as in the source
patterns). -/
def quoteCapture (s : JSStr) : Option JSStr :=
  match s with
  | q :: t =>
    if q == '"' || q == '\'' then
      let cap := t.takeWhile (fun c => c != '"' && c != '\'')
      match t.drop cap.length with
      | [] => none
      | _ :: _ => some cap
    else none
  | [] => none

/-- Find `attr=["']...["']` anywhere in an open-tag region and return the
quoted value (the `[^>]*attr=["']([^"']*)["']` part of the div patterns). -/
def findAttrCapture (attr : JSStr) : Nat → JSStr → Option JSStr
  | 0, _ => none
  | fuel + 1, s =>
    if ciStarts (attr ++ "=".toList) s then
      match quoteCapture (s.drop (attr.length + 1)) with
      | some cap => some cap
      | none =>
        match s with
        | [] => none
        | _ :: t => findAttrCapture attr fuel t
    else
      match s with
      | [] => none
      | _ :: t => findAttrCapture attr fuel t

/-- Lower-case an entire string (for case-insensitive value comparison). -/
def lowerStr (s : JSStr) : JSStr := s.map Char.toLower

/-- The tests the source's `<div ...>` patterns place on the `id`/`class`
attribute: exact `id` value, `id` containing one of several keywords, `class`
containing one of several keywords, or `class` containing one value. -/
inductive AttrTest where
  | idExact (value : JSStr)
  | idContainsAny (keys : List JSStr)
  | classContainsAny (keys : List JSStr)
  | classContains (value : JSStr)

/-- Evaluate an `AttrTest` against the text of an open tag (between `<div` and
`>`). -/
def attrTestHolds : AttrTest → JSStr → Bool
  | .idExact v, region =>
    match findAttrCapture "id".toList (region.length + 1) region with
    | some cap => lowerStr cap == lowerStr v
    | none => false
  | .idContainsAny keys, region =>
    match findAttrCapture "id".toList (region.length + 1) region with
    | some cap => keys.any (fun k => ciIncludes cap k)
    | none => false
  | .classContainsAny keys, region =>
    match findAttrCapture "class".toList (region.length + 1) region with
    | some cap => keys.any (fun k => ciIncludes cap k)
    | none => false
  | .classContains v, region =>
    match findAttrCapture "class".toList (region.length + 1) region with
    | some cap => ciIncludes cap v
    | none => false

/-- Opening pattern `<div[^>]*ATTR[^>]*>` where `ATTR` is one of the attribute
tests above. -/
def openDivWith (test : AttrTest) (s : JSStr) : Option Nat :=
  if ciStarts "<div".toList s then
    match (s.drop 4).findIdx? (fun c => c == '>') with
    | some j => if attrTestHolds test ((s.drop 4).take j) then some (4 + j + 1) else none
    | none => none
  else none

/-- First (non-global) match of `open(.*?)close`: return the inner capture. -/
def firstBlockInner (openM : JSStr → Option Nat) (closeM : JSStr → Option Nat) :
    Nat → JSStr → Option JSStr
  | 0, _ => none
  | fuel + 1, s =>
    match s with
    | [] => none
    | _ :: t =>
      match openM s with
      | some olen =>
        match scanClose closeM true s.length (s.drop olen) with
        | some (inner, _) => some inner
        | none => firstBlockInner openM closeM fuel t
      | none => firstBlockInner openM closeM fuel t

/-- First `openLit[^>]*>(.*?)closeL` match. -/
def firstTagInner (openLit closeL : JSStr) (s : JSStr) : Option JSStr :=
  firstBlockInner (openTagLen openLit) (matchLit closeL) (s.length + 1) s

/-- First `<div[^>]*ATTR[^>]*>(.*?)</div>` match. -/
def firstDivInner (test : AttrTest) (s : JSStr) : Option JSStr :=
  firstBlockInner (openDivWith test) (matchLit "</div>".toList) (s.length + 1) s

/-- The ordered `contentSelectors` list of utils.ts lines 103-124: the first
selector whose match has a non-blank capture wins; otherwise the whole content
is kept (`mainContent = content`). -/
def selectMainContent (content : JSStr) : JSStr :=
  let cands : List (Option JSStr) := [
    firstTagInner "<main".toList "</main>".toList content,
    firstTagInner "<article".toList "</article>".toList content,
    firstDivInner (.idExact "main-content".toList) content,
    firstDivInner (.classContains "main-content".toList) content,
    firstDivInner (.idExact "awsdocs-content".toList) content,
    firstDivInner (.classContains "awsui-article".toList) content,
    firstTagInner "<body".toList "</body>".toList content]
  match cands.findSome? (fun o =>
      match o with
      | some inner => if jsTrim inner = [] then none else some inner
      | none => none) with
  | some inner => inner
  | none => content

/-- Class keywords of the unwanted-div pattern (utils.ts line 132). -/
def unwantedClassKeys : List JSStr :=
  ["feedback".toList, "breadcrumb".toList, "cookie".toList, "copyright".toList,
   "prev-next".toList, "page-utilities".toList]

/-- Id keywords of the unwanted-div pattern (utils.ts line 133). -/
def unwantedIdKeys : List JSStr := ["tools-panel".toList, "feedback".toList]

/-- The `unwantedPatterns` removal loop of utils.ts lines 127-138. -/
def removeUnwanted (s : JSStr) : JSStr :=
  let s1 := replaceTagBlocks "<nav".toList "</nav>".toList (fun _ => []) true s
  let s2 := replaceTagBlocks "<header".toList "</header>".toList (fun _ => []) true s1
  let s3 := replaceTagBlocks "<footer".toList "</footer>".toList (fun _ => []) true s2
  let s4 := replaceTagBlocks "<aside".toList "</aside>".toList (fun _ => []) true s3
  let s5 := runReplace
    (fun u => (openDivWith (.classContainsAny unwantedClassKeys) u).map (fun n => (n, ())))
    (fun _ => matchLit "</div>".toList) (fun _ _ => []) true s4
  runReplace
    (fun u => (openDivWith (.idContainsAny unwantedIdKeys) u).map (fun n => (n, ())))
    (fun _ => matchLit "</div>".toList) (fun _ _ => []) true s5

/-- Opening pattern `<h([1-6])[^>]*>`; captures the heading level. -/
def openHeading (s : JSStr) : Option (Nat × Nat) :=
  match s with
  | a :: b :: d :: rest =>
    if a == '<' && ciChar b 'h' && "123456".toList.contains d then
      match rest.findIdx? (fun c => c == '>') with
      | some j => some (3 + j + 1, d.toNat - '0'.toNat)
      | none => none
    else none
  | _ => none

/-- Closing pattern `</h[1-6]>` (any heading level closes, as in the source
regex). -/
def closeHeading (s : JSStr) : Option Nat :=
  match s with
  | a :: b :: c :: d :: e :: _ =>
    if a == '<' && b == '/' && ciChar c 'h' && "123456".toList.contains d && e == '>' then some 5
    else none
  | _ => none

/-- Heading replacement text: `\n#... cleanedText\n`.  utils.ts trims the
tag-stripped text; mcp-server.js does not (`trimmed` selects which). -/
def headingBuild (trimmed : Bool) (level : Nat) (inner : JSStr) : JSStr :=
  let clean := stripTags [] inner
  "\n".toList ++ List.replicate level '#' ++ " ".toList
    ++ (if trimmed then jsTrim clean else clean) ++ "\n".toList

/-- Global heading conversion. -/
def convertHeadings (trimmed dotAll : Bool) (s : JSStr) : JSStr :=
  runReplace openHeading (fun _ => closeHeading)
    (fun lvl inner => headingBuild trimmed lvl inner) dotAll s

/-- Global `<p[^>]*>(.*?)</p>` conversion with a caller-supplied template. -/
def convertParagraphs (build : JSStr → JSStr) (dotAll : Bool) (s : JSStr) : JSStr :=
  replaceTagBlocks "<p".toList "</p>".toList build dotAll s

/-- Opening pattern `<[uo]l[^>]*>`. -/
def openUlOl (s : JSStr) : Option Nat :=
  match s with
  | a :: b :: l :: rest =>
    if a == '<' && (ciChar b 'u' || ciChar b 'o') && ciChar l 'l' then
      match rest.findIdx? (fun c => c == '>') with
      | some j => some (3 + j + 1)
      | none => none
    else none
  | _ => none

/-- Closing pattern `</[uo]l>` (exact, no attributes). -/
def closeUlOl (s : JSStr) : Option Nat :=
  match s with
  | a :: b :: c :: d :: e :: _ =>
    if a == '<' && b == '/' && (ciChar c 'u' || ciChar c 'o') && ciChar d 'l' && e == '>' then
      some 5
    else none
  | _ => none

/-- Pattern `<\/?(ul|ol)[^>]*>` of mcp-server.js (open or close, with
attributes allowed). -/
def openCloseUlOl (s : JSStr) : Option Nat :=
  match s with
  | a :: rest =>
    if a == '<' then
      let slashLen : Nat := match rest with | '/' :: _ => 1 | _ => 0
      match rest.drop slashLen with
      | x :: l :: r3 =>
        if (ciChar x 'u' || ciChar x 'o') && ciChar l 'l' then
          match r3.findIdx? (fun c => c == '>') with
          | some j => some (1 + slashLen + 2 + j + 1)
          | none => none
        else none
      | _ => none
    else none
  | [] => none

/-- Opening pattern `<pre[^>]*><code[^>]*>`. -/
def openPreCode (s : JSStr) : Option Nat :=
  match openTagLen "<pre".toList s with
  | some n1 =>
    match openTagLen "<code".toList (s.drop n1) with
    | some n2 => some (n1 + n2)
    | none => none
  | none => none

/-- Opening pattern `<a[^>]*href=["']([^"']*)["'][^>]*>`; captures the href. -/
def openLink (s : JSStr) : Option (Nat × JSStr) :=
  if ciStarts "<a".toList s then
    match (s.drop 2).findIdx? (fun c => c == '>') with
    | some j =>
      match findAttrCapture "href".toList (j + 1) ((s.drop 2).take j) with
      | some href => some (2 + j + 1, href)
      | none => none
    | none => none
  else none

/-- Pattern `<br\s*\/?>`. -/
def openBr (s : JSStr) : Option Nat :=
  if ciStarts "<br".toList s then
    let r := s.drop 3
    let sp := r.takeWhile jsIsSpace
    match r.drop sp.length with
    | '/' :: '>' :: _ => some (3 + sp.length + 2)
    | '>' :: _ => some (3 + sp.length + 1)
    | _ => none
  else none

/-- Opening pattern `<(t1|t2)[^>]*>` with the matched tag name captured (for
the `\1` back-reference in the closing pattern). -/
def openPair (t1 t2 : JSStr) (s : JSStr) : Option (Nat × JSStr) :=
  match openTagLen ("<".toList ++ t1) s with
  | some n => some (n, t1)
  | none =>
    match openTagLen ("<".toList ++ t2) s with
    | some n => some (n, t2)
    | none => none

/-- The whole text-transformation pipeline of `extractWithRegex` (utils.ts
lines 96-181), before the final length guard: block removal, main-content
selection, boilerplate removal, the markdown conversion replaces (all with the
`/gsi` flags), tag stripping to spaces, and whitespace cleanup. -/
def extractPipeline (html : JSStr) : JSStr :=
  let content := replaceTagBlocks "<script".toList "</script>".toList (fun _ => []) true html
  let content := replaceTagBlocks "<style".toList "</style>".toList (fun _ => []) true content
  let content := replaceTagBlocks "<noscript".toList "</noscript>".toList (fun _ => []) true content
  let mainContent := selectMainContent content
  let mainContent := removeUnwanted mainContent
  let mainContent := convertHeadings true true mainContent
  let mainContent := convertParagraphs (fun inner => "\n\n".toList ++ inner ++ "\n".toList) true mainContent
  let mainContent := replaceTagBlocks "<li".toList "</li>".toList
    (fun inner => "- ".toList ++ jsTrim (collapseWs (stripTags " ".toList inner)) ++ "\n".toList)
    true mainContent
  let mainContent := runReplaceOpen openUlOl "\n".toList mainContent
  let mainContent := runReplaceOpen closeUlOl "\n".toList mainContent
  let mainContent := runReplace (fun u => (openPreCode u).map (fun n => (n, ())))
    (fun _ => matchLit "</code></pre>".toList)
    (fun _ inner => "\n```\n".toList ++ jsTrim (stripTags [] inner) ++ "\n```\n".toList)
    true mainContent
  let mainContent := replaceTagBlocks "<code".toList "</code>".toList
    (fun inner => "`".toList ++ stripTags [] inner ++ "`".toList) true mainContent
  let mainContent := runReplace openLink (fun _ => matchLit "</a>".toList)
    (fun href inner =>
      let cleanText := jsTrim (stripTags [] inner)
      if cleanText = [] then href
      else "[".toList ++ cleanText ++ "](".toList ++ href ++ ")".toList)
    true mainContent
  let mainContent := runReplaceOpen openBr "\n".toList mainContent
  let mainContent := runReplace (openPair "strong".toList "b".toList)
    (fun tag => matchLit ("</".toList ++ tag ++ ">".toList))
    (fun _ inner => "**".toList ++ inner ++ "**".toList) true mainContent
  let mainContent := runReplace (openPair "em".toList "i".toList)
    (fun tag => matchLit ("</".toList ++ tag ++ ">".toList))
    (fun _ inner => "*".toList ++ inner ++ "*".toList) true mainContent
  let mainContent := stripTags " ".toList mainContent
  let mainContent := collapseWs mainContent
  let mainContent := collapseNlWs mainContent
  let mainContent := collapseTripleNl mainContent
  jsTrim mainContent

/-- utils.ts `extractWithRegex`: run the pipeline, then the `ContentEmpty`
guard of lines 183-185 — an empty or shorter-than-10-characters result is
replaced by the diagnostic placeholder.  (The surrounding `try/catch` of the
source can never fire here: every step is a total string transformation.) -/
def extractWithRegex (html : JSStr) : JSStr :=
  let mainContent := extractPipeline html
  if mainContent = [] ∨ mainContent.length < 10 then
    "<e>Page failed to be simplified from HTML</e>".toList
  else mainContent

/-- What the external jsdom/turndown collaborators do inside
`extractWithJSDOM` (utils.ts lines 44-82): `new JSDOM(html)` may throw
(`throws`, caught at lines 85-88), the selector chain may leave no main
content (`noMain`, line 71), or the DOM cleanup plus
`turndownService.turndown(...)` produce a markdown string (`converts`).
jsdom and turndown are imported packages, not code of this repository, so
their work is an outcome parameter. -/
inductive JsdomRun where
  | throws
  | noMain
  | converts (markdown : JSStr)
deriving DecidableEq

/-- The extractor's environment: whether the `jsdom`/`turndown` imports
succeeded (utils.ts lines 12-20; `false` in the Cloudflare Workers runtime,
`true` under Node.js), and what the jsdom run does when they did. -/
structure JsdomEnv where
  available : Bool
  run : JsdomRun
deriving DecidableEq

/-- utils.ts `extractWithJSDOM` (lines 43-89): on a successful conversion the
repository code applies ONLY `.replace(/\n\s*\n\s*\n/g, '\n\n').trim()`
(line 83) to turndown's markdown — there is NO empty/short-content guard on
this strategy; a failed selector chain yields the no-main placeholder
(line 72), and a thrown jsdom error falls back to `extractWithRegex`
(lines 85-88). -/
def extractWithJSDOM (html : JSStr) (run : JsdomRun) : JSStr :=
  match run with
  | .throws => extractWithRegex html
  | .noMain => "<e>No main content found</e>".toList
  | .converts markdown => jsTrim (collapseTripleNl markdown)

/-- utils.ts `extractContentFromHtml` (lines 26-38): the empty-input
placeholder, then the strategy dispatch of line 32 — the jsdom strategy
whenever `JSDOM && TurndownService` imported, the regex fallback otherwise. -/
def extractContentFromHtml (html : JSStr) (env : JsdomEnv) : JSStr :=
  if html = [] then "<e>Empty HTML content</e>".toList
  else if env.available then extractWithJSDOM html env.run
  else extractWithRegex html

/-- utils.ts `isHtmlContent(pageRaw, contentType)`. -/
def isHtmlContent (pageRaw contentType : JSStr) : Bool :=
  jsIncludes (jsSlice pageRaw 0 100) "<html".toList
    || jsIncludes contentType "text/html".toList
    || contentType.isEmpty

end Utils

namespace Utils
/-! ## utils.ts — `parseRecommendationResults` and its data model -/

/-- models.ts `RecommendationResult`. -/
structure RecommendationResult where
  url : JSStr
  title : JSStr
  context : Option JSStr
deriving DecidableEq

/-- An item of the `highlyRated.items` / `similar.items` buckets. -/
structure RatedItem where
  url : Option JSStr
  assetTitle : Option JSStr
  abstract : Option JSStr
deriving DecidableEq

/-- An entry of an intent group's `urls` array (journey bucket). -/
structure UrlItem where
  url : Option JSStr
  assetTitle : Option JSStr
deriving DecidableEq

/-- An intent group of the `journey.items` bucket. -/
structure IntentGroup where
  intent : Option JSStr
  urls : Option (List UrlItem)
deriving DecidableEq

/-- An item of the `new.items` bucket. -/
structure NewItem where
  url : Option JSStr
  assetTitle : Option JSStr
  dateCreated : Option JSStr
deriving DecidableEq

/-- The recommendation API response body.  Each field models the optional
chain `data.X?.items` of the source (`none` covers both a missing bucket and a
bucket without `items`); `newContent` models the `new` bucket. -/
structure RecommendationData where
  highlyRated : Option (List RatedItem)
  journey : Option (List IntentGroup)
  newContent : Option (List NewItem)
  similar : Option (List RatedItem)
deriving DecidableEq

/-- `data.X?.items` as a plain list. -/
def itemsOf {α : Type} (o : Option (List α)) : List α := o.getD []

/-- The highly-rated conversion (utils.ts lines 251-258): `context` is
`item.abstract || undefined`. -/
def ratedToRec (it : RatedItem) : RecommendationResult :=
  ⟨jsOrStr it.url [], jsOrStr it.assetTitle [], jsOrUndef it.abstract⟩

/-- The journey conversion for one url item (utils.ts lines 266-274), with the
group's `intent` value (already defaulted to the empty string). -/
def journeyUrlToRec (intent : JSStr) (it : UrlItem) : RecommendationResult :=
  ⟨jsOrStr it.url [], jsOrStr it.assetTitle [],
    if intent = [] then none else some ("Intent: ".toList ++ intent)⟩

/-- The new-content conversion (utils.ts lines 281-290). -/
def newToRec (it : NewItem) : RecommendationResult :=
  let dateCreated := jsOrStr it.dateCreated []
  ⟨jsOrStr it.url [], jsOrStr it.assetTitle [],
    some (if dateCreated = [] then "New content".toList
          else "New content added on ".toList ++ dateCreated)⟩

/-- The similar conversion (utils.ts lines 295-302): `context` is
`item.abstract || 'Similar content'`. -/
def similarToRec (it : RatedItem) : RecommendationResult :=
  ⟨jsOrStr it.url [], jsOrStr it.assetTitle [], some (jsOrStr it.abstract "Similar content".toList)⟩

/-- The body of the journey loop (utils.ts lines 263-276): one intent group's
`urls` pushed onto the accumulated `results`. -/
def journeyFold (acc : List RecommendationResult) (intentGroup : IntentGroup) :
    List RecommendationResult :=
  let intent := jsOrStr intentGroup.intent []
  match intentGroup.urls with
  | some urls => urls.foldl (fun acc2 urlItem => acc2 ++ [journeyUrlToRec intent urlItem]) acc
  | none => acc

/-- The recommendations one intent group contributes, as a standalone list
(used to characterise the merge order). -/
def journeyBlock (intentGroup : IntentGroup) : List RecommendationResult :=
  match intentGroup.urls with
  | some urls => urls.map (journeyUrlToRec (jsOrStr intentGroup.intent []))
  | none => []

/-- utils.ts `parseRecommendationResults(data)`: the four category loops in
source order (highly rated, journey, new, similar), each pushing onto the
shared `results` array. -/
def parseRecommendationResults (data : RecommendationData) : List RecommendationResult :=
  let r1 := (itemsOf data.highlyRated).foldl (fun acc it => acc ++ [ratedToRec it]) []
  let r2 := (itemsOf data.journey).foldl journeyFold r1
  let r3 := (itemsOf data.newContent).foldl (fun acc it => acc ++ [newToRec it]) r2
  (itemsOf data.similar).foldl (fun acc it => acc ++ [similarToRec it]) r3

end Utils

namespace ServerUtils
/-! ## server-utils.ts — the three tool implementations

Each implementation performs exactly one `fetch` (an external collaborator).
The fetch's outcome is an explicit argument: `exn` covers a rejected fetch or
a rejected body read — a timeout (`AbortSignal.timeout(30000)`), a network
fault, or a `response.json()` parse failure, all of which land in the
function's `catch` — and `resp` covers a completed response with its `ok`
flag, status and (already-decoded) body. -/

/-- An item of the search API's response, any of the recognised shapes: only
the fields the source reads are modelled, each optional. -/
structure RawSearchItem where
  url : Option JSStr
  link : Option JSStr
  title : Option JSStr
  excerpt : Option JSStr
  snippet : Option JSStr
  context : Option JSStr
deriving DecidableEq

/-- An element of a `data.hits` array: `hit._source || hit` uses the `_source`
field when present, else the hit object itself. -/
structure SearchHit where
  source : Option RawSearchItem
  base : RawSearchItem
deriving DecidableEq

/-- The shapes `searchDocumentationImpl` recognises in the decoded JSON body
(server-utils.ts lines 131-137): `data.results` array, `data.hits` array, the
body itself an array, or none of these (items stay empty). -/
inductive SearchBody where
  | resultsShape (items : List RawSearchItem)
  | hitsShape (hits : List SearchHit)
  | arrayShape (items : List RawSearchItem)
  | unrecognized
deriving DecidableEq

/-- Outcome of the search fetch. -/
inductive SearchFetchOutcome where
  | exn (msg : JSStr)
  | resp (ok : Bool) (status : Int) (body : SearchBody)
deriving DecidableEq

/-- models.ts `SearchResult` as built by `searchDocumentationImpl` (`context`
is always assigned a string there, possibly empty). -/
structure SearchResult where
  rank_order : Int
  url : JSStr
  title : JSStr
  context : JSStr
deriving DecidableEq

/-- JS `encodeURIComponent`, modelled for the ASCII strings these sources
feed it: unreserved characters pass through, others are percent-encoded. -/
def encodeURIComponent (s : JSStr) : JSStr :=
  let hexDigit : Nat → Char := fun n =>
    if n < 10 then Char.ofNat ('0'.toNat + n) else Char.ofNat ('A'.toNat + n - 10)
  s.flatMap (fun c =>
    if c.isAlphanum || "-_.!~*'()".toList.contains c then [c]
    else ['%', hexDigit (c.toNat / 16 % 16), hexDigit (c.toNat % 16)])

/-- The two mock results returned when the search API answers with a
non-success status (server-utils.ts lines 105-122). -/
def mockSearchStatusResults (query : JSStr) : List SearchResult :=
  [⟨1, "https://docs.aws.amazon.com/search?q=".toList ++ encodeURIComponent query,
     "AWS Documentation Search Results for \"".toList ++ query ++ "\"".toList,
     "Search results for: ".toList ++ query⟩,
   ⟨2, "https://docs.aws.amazon.com/getting-started/".toList,
     query ++ " - AWS Getting Started Guide".toList,
     "Getting started with ".toList ++ query ++ " on AWS".toList⟩]

/-- The single mock result returned from the catch branch (server-utils.ts
lines 151-162). -/
def mockSearchCatchResults (query : JSStr) : List SearchResult :=
  [⟨1, "https://docs.aws.amazon.com/search?q=".toList ++ encodeURIComponent query,
     "AWS Documentation for \"".toList ++ query ++ "\"".toList,
     "Search results for: ".toList ++ query⟩]

/-- The result-building loop of server-utils.ts lines 139-147:
`for (i = 0; i < Math.min(items.length, maxResults); i++)` with the `||`
fallback chains for each field. -/
def buildSearchResults (items : List RawSearchItem) (maxResults startIndex : Int) :
    List SearchResult :=
  (items.take ((min (items.length : Int) maxResults).toNat)).mapIdx (fun i item =>
    ⟨startIndex + i + 1,
     jsOrStr item.url (jsOrStr item.link []),
     jsOrStr item.title "Untitled".toList,
     jsOrStr item.excerpt (jsOrStr item.snippet (jsOrStr item.context []))⟩)

/-- server-utils.ts `searchDocumentationImpl`. -/
def searchDocumentationImpl (query : JSStr) (maxResults startIndex : Int)
    (outcome : SearchFetchOutcome) : List SearchResult :=
  match outcome with
  | .exn _ => mockSearchCatchResults query
  | .resp ok _ body =>
    if !ok then mockSearchStatusResults query
    else
      let items : List RawSearchItem :=
        match body with
        | .resultsShape items => items
        | .hitsShape hits => hits.map (fun h => h.source.getD h.base)
        | .arrayShape items => items
        | .unrecognized => []
      buildSearchResults items maxResults startIndex

/-- Outcome of the recommendations fetch; the decoded body is a
`RecommendationData` (the bucketed response shape). -/
inductive RecFetchOutcome where
  | exn (msg : JSStr)
  | resp (ok : Bool) (status : Int) (body : Utils.RecommendationData)
deriving DecidableEq

/-- The two mock recommendations returned on a non-success status
(server-utils.ts lines 193-208). -/
def mockRecsStatusResults : List Utils.RecommendationResult :=
  [⟨"https://aws.amazon.com/getting-started/".toList, "AWS Getting Started".toList,
    some "Get started with AWS services and best practices".toList⟩,
   ⟨"https://docs.aws.amazon.com/".toList, "AWS Documentation".toList,
    some "Complete AWS documentation and guides".toList⟩]

/-- The two mock recommendations returned from the catch branch
(server-utils.ts lines 223-238). -/
def mockRecsCatchResults : List Utils.RecommendationResult :=
  [⟨"https://aws.amazon.com/getting-started/".toList, "AWS Getting Started".toList,
    some "Get started with AWS services".toList⟩,
   ⟨"https://docs.aws.amazon.com/".toList, "AWS Documentation".toList,
    some "Complete AWS documentation".toList⟩]

/-- The fixed single-item list returned on a successful response
(server-utils.ts lines 213-221; the source comment reads "This would need to
be processed with parseRecommendationResults - For now, return basic
structure"). -/
def okRecsPlaceholder : List Utils.RecommendationResult :=
  [⟨"https://aws.amazon.com/getting-started/".toList, "AWS Getting Started".toList,
    some "Recommended based on your content".toList⟩]

/-- server-utils.ts `getRecommendationsImpl`: the decoded body is ignored on
every path; `parseRecommendationResults` is never invoked. -/
def getRecommendationsImpl (content : JSStr) (maxResults : Int)
    (outcome : RecFetchOutcome) : List Utils.RecommendationResult :=
  match outcome with
  | .exn _ => mockRecsCatchResults
  | .resp ok _ _ =>
    if !ok then mockRecsStatusResults
    else okRecsPlaceholder

/-- Outcome of the documentation-page fetch in `readDocumentationImpl`. -/
inductive DocFetchOutcome where
  | exn (msg : JSStr)
  | resp (ok : Bool) (status : Int) (pageRaw : JSStr) (contentType : JSStr)
deriving DecidableEq

/-- server-utils.ts `readDocumentationImpl`: every failure path returns a
plain message string; the function never throws.  `env` is the Content
Extractor's jsdom environment (utils.ts lines 12-20). -/
def readDocumentationImpl (urlStr : JSStr) (maxLength startIndex : Int)
    (outcome : DocFetchOutcome) (env : Utils.JsdomEnv) : JSStr :=
  match outcome with
  | .exn msg => "Failed to fetch ".toList ++ urlStr ++ ": ".toList ++ msg
  | .resp ok status pageRaw contentType =>
    if !ok then
      "Failed to fetch ".toList ++ urlStr ++ " - status code ".toList ++ (toString status).toList
    else
      let content :=
        if Utils.isHtmlContent pageRaw contentType then Utils.extractContentFromHtml pageRaw env
        else pageRaw
      Utils.formatDocumentationResult urlStr content startIndex maxLength

end ServerUtils

namespace IndexTs
/-! ## index.ts — the three tool handlers registered with `server.tool`

Each handler wraps its implementation in `try/catch` and marks the result
`isError: true` only when the implementation throws.  The implementations
above are total (they return on every path), so the catch never fires; the
only `isError: true` outcome is the URL-guard rejection in
`read_documentation`. -/

/-- The `{content: [{type: 'text', text}], isError?}` tool result, reduced to
its text and error flag. -/
structure ToolResult where
  text : JSStr
  isError : Bool
deriving DecidableEq

/-- The rejection returned by the `read_documentation` URL guard
(index.ts lines 108-116). -/
def invalidUrlResult : ToolResult :=
  ⟨"Error: URL must be from AWS documentation (docs.aws.amazon.com)".toList, true⟩

/-- The URL guard of index.ts line 108: the url passes when it CONTAINS either
substring (`url.includes(...)`), wherever that substring occurs. -/
def awsDocsUrlAccepted (url : JSStr) : Bool :=
  jsIncludes url "docs.aws.amazon.com".toList
    || jsIncludes url "aws.amazon.com/documentation".toList

/-- index.ts `read_documentation` handler (lines 106-143). -/
def readDocumentationTool (url : JSStr) (maxLength startIndex : Int)
    (outcome : ServerUtils.DocFetchOutcome) (env : Utils.JsdomEnv) : ToolResult :=
  if !(awsDocsUrlAccepted url) then invalidUrlResult
  else ⟨ServerUtils.readDocumentationImpl url maxLength startIndex outcome env, false⟩

/-- The formatted text of the `search_documentation` handler (index.ts lines
68-77): `result.rank_order || index + 1` treats a zero rank as falsy, and the
`Summary` line is emitted only for a truthy context. -/
def formatSearchText (query : JSStr) (results : List ServerUtils.SearchResult) : JSStr :=
  "Found ".toList ++ (toString results.length).toList ++ " results for \"".toList ++ query
    ++ "\":\n\n".toList
    ++ (results.mapIdx (fun i r =>
        "## ".toList
          ++ (toString (if r.rank_order = 0 then (i : Int) + 1 else r.rank_order)).toList
          ++ ". ".toList ++ r.title ++ "\n\n".toList
          ++ "**URL**: [".toList ++ r.title ++ "](".toList ++ r.url ++ ")\n\n".toList
          ++ (if r.context = [] then [] else "**Summary**: ".toList ++ r.context ++ "\n\n".toList)
          ++ "---\n\n".toList)).flatten

/-- index.ts `search_documentation` handler (lines 47-95): the implementation
never throws, so the catch branch is dead and `isError` is never set. -/
def searchTool (query : JSStr) (maxResults startIndex : Int)
    (outcome : ServerUtils.SearchFetchOutcome) : ToolResult :=
  ⟨formatSearchText query (ServerUtils.searchDocumentationImpl query maxResults startIndex outcome),
   false⟩

/-- The formatted text of the `recommend` handler (index.ts lines 166-175). -/
def formatRecsText (recs : List Utils.RecommendationResult) : JSStr :=
  "Found ".toList ++ (toString recs.length).toList
    ++ " recommendations for your content:\n\n".toList
    ++ (recs.mapIdx (fun i r =>
        "## ".toList ++ (toString ((i : Int) + 1)).toList ++ ". ".toList ++ r.title
          ++ "\n\n".toList
          ++ "**URL**: [".toList ++ r.title ++ "](".toList ++ r.url ++ ")\n\n".toList
          ++ (match r.context with
              | some c => if c = [] then [] else "**Description**: ".toList ++ c ++ "\n\n".toList
              | none => [])
          ++ "---\n\n".toList)).flatten

/-- index.ts `recommend` handler (lines 147-192): the implementation never
throws, so `isError` is never set. -/
def recommendTool (content : JSStr) (maxResults : Int)
    (outcome : ServerUtils.RecFetchOutcome) : ToolResult :=
  ⟨formatRecsText (ServerUtils.getRecommendationsImpl content maxResults outcome), false⟩

end IndexTs

/-- JS `String.prototype.startsWith` (used to model the anchored regex
`^https?:\/\/docs\.aws\.amazon\.com\//`). -/
def jsStartsWith (s pat : JSStr) : Bool := pat.isPrefixOf s

/-- JS `String.prototype.endsWith`. -/
def jsEndsWith (s pat : JSStr) : Bool := pat.isSuffixOf s

namespace McpServerJs
/-! ## mcp-server.js — the JSON-RPC Dispatcher (`McpServer`)

`handleRequest` validates the envelope, routes the five methods, and converts
anything the tool layer throws into an `InternalError` (-32603).  The tool
implementations are modelled with `Except`: `.error` is a thrown `Error` and
its message.  The exact text of a JS engine's `TypeError` (for destructuring
`undefined`) is engine-specific; fixed stand-in strings are used for those two
messages only. -/

/-- A JSON-RPC `id` value (string, number, null; `none` at the `Option` level
models an absent field). -/
inductive Json where
  | null
  | bool (b : Bool)
  | num (n : Int)
  | str (s : JSStr)
deriving DecidableEq

/-- A tool definition as stored in `this.tools` (mcp-server.js lines 26-90).
The `inputSchema` is reduced to its property names and required list; the
per-property types, defaults and bounds are constants not consulted by the
dispatch logic. -/
structure ToolDefinition where
  name : JSStr
  description : JSStr
  requiredParams : List JSStr
  optionalParams : List JSStr
deriving DecidableEq

/-- The `read_documentation` definition (mcp-server.js lines 28-54). -/
def readDocumentationDef : ToolDefinition :=
  ⟨"read_documentation".toList,
   "Fetch and convert an AWS documentation page to markdown format".toList,
   ["url".toList], ["max_length".toList, "start_index".toList]⟩

/-- The `search_documentation` definition (mcp-server.js lines 55-75). -/
def searchDocumentationDef : ToolDefinition :=
  ⟨"search_documentation".toList,
   "Search AWS documentation using the official AWS Documentation Search API".toList,
   ["search_phrase".toList], ["limit".toList]⟩

/-- The `recommend` definition (mcp-server.js lines 76-89). -/
def recommendDef : ToolDefinition :=
  ⟨"recommend".toList,
   "Get content recommendations for an AWS documentation page".toList,
   ["url".toList], []⟩

/-- `Object.values(this.tools)` in insertion order (mcp-server.js line 182). -/
def tools : List ToolDefinition := [readDocumentationDef, searchDocumentationDef, recommendDef]

/-- The union of the three tools' argument fields (`params.arguments`). -/
structure ToolArgs where
  url : Option JSStr
  max_length : Option Int
  start_index : Option Int
  search_phrase : Option JSStr
  limit : Option Int
deriving DecidableEq

/-- `params` of a `tools/call` request. -/
structure ToolCallParams where
  name : Option JSStr
  arguments : Option ToolArgs
deriving DecidableEq

/-- A JSON-RPC request as destructured by `handleRequest` (mcp-server.js line
108); each field may be absent. -/
structure RpcRequest where
  jsonrpc : Option JSStr
  id : Option Json
  method : Option JSStr
  params : Option ToolCallParams
deriving DecidableEq

/-- An item of the search API's `suggestions` array. -/
structure TextExcerptSuggestion where
  link : Option JSStr
  title : Option JSStr
  summary : Option JSStr
  suggestionBody : Option JSStr
deriving DecidableEq

/-- One suggestion wrapper (`suggestion.textExcerptSuggestion`). -/
structure Suggestion where
  textExcerptSuggestion : Option TextExcerptSuggestion
deriving DecidableEq

/-- The search API response body. -/
structure SearchApiBody where
  suggestions : Option (List Suggestion)
deriving DecidableEq

/-- An item of the recommendations API's `recommendations` array. -/
structure RecApiItem where
  url : Option JSStr
  title : Option JSStr
  description : Option JSStr
deriving DecidableEq

/-- The recommendations API response body. -/
structure RecApiBody where
  recommendations : Option (List RecApiItem)
deriving DecidableEq

/-- Outcome of the documentation-page fetch; `exn` covers a rejected fetch or
body read (whatever lands in the catch). -/
inductive DocFetch where
  | exn (msg : JSStr)
  | resp (ok : Bool) (status : Int) (statusText : JSStr) (html : JSStr)
deriving DecidableEq

/-- Outcome of the search API fetch; `exn` also covers a `response.json()`
rejection (both land in the same catch). -/
inductive SearchFetch where
  | exn (msg : JSStr)
  | resp (ok : Bool) (status : Int) (body : SearchApiBody)
deriving DecidableEq

/-- Outcome of the recommendations API fetch. -/
inductive RecFetch where
  | exn (msg : JSStr)
  | resp (ok : Bool) (status : Int) (body : RecApiBody)
deriving DecidableEq

/-- The one fetch each tool call may perform. -/
structure FetchEnv where
  doc : DocFetch
  search : SearchFetch
  recs : RecFetch
deriving DecidableEq

/-- A search result as pushed by `searchDocumentation` (mcp-server.js lines
294-299). -/
structure JsSearchResult where
  rank_order : Int
  url : JSStr
  title : JSStr
  context : Option JSStr
deriving DecidableEq

/-- A recommendation as pushed by `recommend` (mcp-server.js lines 340-344). -/
structure JsRecResult where
  url : JSStr
  title : JSStr
  context : Option JSStr
deriving DecidableEq

/-- The text content of a tool result.  The search and recommend tools return
`JSON.stringify(results, null, 2)`; the serialisation is abstracted as the
value it serialises. -/
inductive ToolText where
  | raw (s : JSStr)
  | searchJson (rs : List JsSearchResult)
  | recJson (rs : List JsRecResult)
deriving DecidableEq

/-- Stand-in for the engine TypeError thrown when destructuring `undefined`
`params`/`args`. -/
def typeErrorArgs : JSStr := "Cannot destructure property of undefined".toList

/-- Stand-in for the engine TypeError thrown by `url.match(...)` when `url`
is `undefined`. -/
def typeErrorUrl : JSStr := "Cannot read properties of undefined".toList

/-- mcp-server.js `htmlToMarkdown` (lines 363-396): the same replace engine,
with these differences from utils.ts: no `/s` flag on any pattern (the lazy
parts cannot cross a newline), headings are not trimmed, paragraphs become
`\n$1\n`, link text and list items are not cleaned, remaining tags are
stripped to the empty string, and only the triple-newline collapse runs. -/
def htmlToMarkdown (html : JSStr) : JSStr :=
  let s := Utils.replaceTagBlocks "<script".toList "</script>".toList (fun _ => []) true html
  let s := Utils.replaceTagBlocks "<style".toList "</style>".toList (fun _ => []) true s
  let s := Utils.convertHeadings false false s
  let s := Utils.convertParagraphs (fun inner => "\n".toList ++ inner ++ "\n".toList) false s
  let s := Utils.runReplace Utils.openLink (fun _ => Utils.matchLit "</a>".toList)
    (fun href inner => "[".toList ++ inner ++ "](".toList ++ href ++ ")".toList) false s
  let s := Utils.runReplace (fun u => (Utils.openPreCode u).map (fun n => (n, ())))
    (fun _ => Utils.matchLit "</code></pre>".toList)
    (fun _ inner => "\n```\n".toList ++ inner ++ "\n```\n".toList) false s
  let s := Utils.replaceTagBlocks "<code".toList "</code>".toList
    (fun inner => "`".toList ++ inner ++ "`".toList) false s
  let s := Utils.replaceTagBlocks "<li".toList "</li>".toList
    (fun inner => "- ".toList ++ inner ++ "\n".toList) false s
  let s := Utils.runReplaceOpen Utils.openCloseUlOl "\n".toList s
  let s := Utils.stripTags [] s
  let s := Utils.collapseTripleNl s
  jsTrim s

/-- mcp-server.js `readDocumentation` (lines 210-252): URL validation (an
anchored host check plus an `.html` suffix check), fetch, markdown conversion
and slice-based pagination.  A thrown error is an `Except.error`. -/
def readDocumentation (args : Option ToolArgs) (f : DocFetch) : Except JSStr ToolText :=
  match args with
  | none => .error typeErrorArgs
  | some a =>
    let maxLength := a.max_length.getD 5000
    let startIndex := a.start_index.getD 0
    match a.url with
    | none => .error typeErrorUrl
    | some url =>
      if !(jsStartsWith url "https://docs.aws.amazon.com/".toList
            || jsStartsWith url "http://docs.aws.amazon.com/".toList) then
        .error "URL must be from the docs.aws.amazon.com domain".toList
      else if !(jsEndsWith url ".html".toList) then
        .error "URL must end with .html".toList
      else
        match f with
        | .exn msg => .error ("Failed to fetch documentation: ".toList ++ msg)
        | .resp ok status statusText html =>
          if !ok then
            .error ("Failed to fetch documentation: HTTP ".toList ++ (toString status).toList
              ++ ": ".toList ++ statusText)
          else
            let markdown := htmlToMarkdown html
            let content :=
              if 0 < startIndex then Utils.jsSlice markdown startIndex markdown.length
              else markdown
            let content :=
              if maxLength < (content.length : Int) then
                Utils.jsSlice content 0 maxLength
                  ++ "\n\n[Content truncated - use start_index parameter to continue reading]".toList
              else content
            .ok (.raw content)

/-- mcp-server.js `searchDocumentation` (lines 257-313). -/
def searchDocumentation (args : Option ToolArgs) (f : SearchFetch) : Except JSStr ToolText :=
  match args with
  | none => .error typeErrorArgs
  | some a =>
    let limit := a.limit.getD 10
    match f with
    | .exn msg => .error ("Search failed: ".toList ++ msg)
    | .resp ok status body =>
      if !ok then .error ("Search failed: Search API returned ".toList ++ (toString status).toList)
      else
        let results : List JsSearchResult :=
          match body.suggestions with
          | some suggs =>
            ((suggs.take ((min (suggs.length : Int) limit).toNat)).mapIdx (fun i sg =>
              sg.textExcerptSuggestion.map (fun tes =>
                let c := jsOrStr tes.summary (jsOrStr tes.suggestionBody [])
                ({ rank_order := (i : Int) + 1,
                   url := jsOrStr tes.link [],
                   title := jsOrStr tes.title [],
                   context := if c = [] then none else some c } : JsSearchResult)))).filterMap id
          | none => []
        .ok (.searchJson results)

/-- mcp-server.js `recommend` (lines 318-358): keeps only items with truthy
`url` and `title`. -/
def recommend (args : Option ToolArgs) (f : RecFetch) : Except JSStr ToolText :=
  match args with
  | none => .error typeErrorArgs
  | some _ =>
    match f with
    | .exn msg => .error ("Recommendations failed: ".toList ++ msg)
    | .resp ok status body =>
      if !ok then
        .error ("Recommendations failed: Recommendations API returned ".toList
          ++ (toString status).toList)
      else
        let results : List JsRecResult :=
          match body.recommendations with
          | some recs =>
            recs.filterMap (fun r =>
              match jsOrUndef r.url, jsOrUndef r.title with
              | some u, some t => some ⟨u, t, jsOrUndef r.description⟩
              | _, _ => none)
          | none => []
        .ok (.recJson results)

/-- mcp-server.js `handleToolsCall` (lines 189-205): destructures `params`
(throwing on `undefined`) and switches on the tool name; an unknown or absent
name throws `Unknown tool: ...`. -/
def handleToolsCall (params : Option ToolCallParams) (env : FetchEnv) : Except JSStr ToolText :=
  match params with
  | none => .error typeErrorArgs
  | some p =>
    match p.name with
    | some n =>
      if n = "read_documentation".toList then readDocumentation p.arguments env.doc
      else if n = "search_documentation".toList then searchDocumentation p.arguments env.search
      else if n = "recommend".toList then recommend p.arguments env.recs
      else .error ("Unknown tool: ".toList ++ n)
    | none => .error ("Unknown tool: ".toList ++ "undefined".toList)

/-- A routed result (the `result` field of a success response). -/
inductive RpcResult where
  | initResult (protocolVersion serverName serverVersion : JSStr)
      (runtime : Option JSStr) (instructions : Option JSStr)
  | toolsList (tls : List ToolDefinition)
  | resourcesList
  | promptsList
  | toolText (t : ToolText)
deriving DecidableEq

/-- A JSON-RPC response: exactly one of success/error, echoing the request
id.  The optional `data` string models the `data` field some transports
attach to errors. -/
inductive RpcResponse where
  | success (id : Option Json) (result : RpcResult)
  | error (id : Option Json) (code : Int) (message : JSStr) (data : Option JSStr)
deriving DecidableEq

/-- The `instructions` text of `handleInitialize` (mcp-server.js lines
157-173, after `.trim()`). -/
def initInstructions : JSStr :=
  ("# AWS Documentation MCP Server\n\nThis server provides tools to access public AWS documentation, search for content, and get recommendations.\n\n## Available Tools\n\n- **read_documentation**: Fetch and convert AWS documentation pages to markdown\n- **search_documentation**: Search AWS documentation using the official search API  \n- **recommend**: Get related content recommendations for documentation pages\n\n## Best Practices\n\n- Use specific technical terms when searching\n- For long documents, use pagination with start_index parameter\n- Always cite documentation URLs when providing information").toList

/-- mcp-server.js `handleInitialize` (lines 152-175). -/
def handleInitialize : RpcResult :=
  .initResult "2024-11-05".toList "aws-documentation-mcp-server".toList "1.0.0".toList
    (some "cloudflare-workers".toList) (some initInstructions)

/-- mcp-server.js `handleRequest` (lines 107-147): the `jsonrpc !== '2.0'`
guard (also rejecting an absent field), the five-way method switch (an absent
method hits the default branch, where the template renders `undefined`), and
the catch converting a thrown tool error into `-32603`. -/
def handleRequest (req : RpcRequest) (env : FetchEnv) : RpcResponse :=
  if req.jsonrpc ≠ some "2.0".toList then
    .error req.id (-32600) "Invalid Request: jsonrpc must be 2.0".toList none
  else
    match req.method with
    | some m =>
      if m = "initialize".toList then .success req.id handleInitialize
      else if m = "tools/list".toList then .success req.id (.toolsList tools)
      else if m = "tools/call".toList then
        match handleToolsCall req.params env with
        | .ok t => .success req.id (.toolText t)
        | .error msg => .error req.id (-32603) ("Internal error: ".toList ++ msg) none
      else if m = "resources/list".toList then .success req.id .resourcesList
      else if m = "prompts/list".toList then .success req.id .promptsList
      else .error req.id (-32601) ("Method not found: ".toList ++ m) none
    | none => .error req.id (-32601) ("Method not found: ".toList ++ "undefined".toList) none

end McpServerJs

namespace Transports
/-! ## transports.ts — the simplified Streamable-HTTP and SSE-message
endpoints.  Neither routes through the Dispatcher: each inlines an
`initialize` response and answers every other method with `-32601`. -/

/-- The `/mcp` POST handler (transports.ts lines 62-123), for a request whose
body parsed successfully. -/
def mcpPostHandler (req : McpServerJs.RpcRequest) : McpServerJs.RpcResponse :=
  if req.method = some "initialize".toList then
    .success req.id (.initResult "2024-11-05".toList "aws-documentation-mcp-server".toList
      "1.0.0-typescript".toList none none)
  else
    .error req.id (-32601) "Method not found".toList
      (some ("Method ".toList
        ++ (match req.method with | some m => m | none => "undefined".toList)
        ++ " not implemented in simplified transport".toList))

/-- Response of the `/messages` POST endpoint (transports.ts lines 193-271):
a session-level rejection (HTTP 400) before any JSON-RPC processing, or a
JSON-RPC response framed as an SSE `data:` event. -/
inductive MessagesResponse where
  | invalidSession
  | rpc (r : McpServerJs.RpcResponse)
deriving DecidableEq

/-- The `/messages` POST handler: unknown/absent session ids are rejected
first; otherwise the same simplified routing as `/mcp`. -/
def messagesHandler (sessionValid : Bool) (req : McpServerJs.RpcRequest) : MessagesResponse :=
  if !sessionValid then .invalidSession
  else if req.method = some "initialize".toList then
    .rpc (.success req.id (.initResult "2024-11-05".toList
      "aws-documentation-mcp-server".toList "1.0.0-typescript".toList none none))
  else
    .rpc (.error req.id (-32601) "Method not found".toList
      (some ("Method ".toList
        ++ (match req.method with | some m => m | none => "undefined".toList)
        ++ " not implemented yet".toList)))

end Transports

-- ===== Theorems =====

namespace Utils

theorem jsSlice_of_nonneg (s : JSStr) (a b : Int) (ha : 0 ≤ a) (hb : 0 ≤ b) :
    jsSlice s a b =
      (s.drop (min a s.length).toNat).take ((min b s.length) - (min a s.length)).toNat := by
  unfold jsSlice
  have h1 : ¬ a < 0 := by omega
  have h2 : ¬ b < 0 := by omega
  simp only [h1, h2, if_false]
  by_cases h : min b (s.length : Int) ≤ min a (s.length : Int)
  · have : ((min b (s.length : Int)) - (min a (s.length : Int))).toNat = 0 := by omega
    simp [h, this]
  · simp [h]

/-- For `0 ≤ s < len` and `0 < m`, the pagination slice is a nonempty
`take`/`drop` fragment of the content. -/
theorem paginationSlice_eq (content : JSStr) (s : Nat) (m : Int)
    (hs : s < content.length) (hm : 0 < m) :
    paginationSlice content s m =
      (content.drop s).take ((min (s + m) (content.length : Int)).toNat - s) := by
  unfold paginationSlice
  rw [jsSlice_of_nonneg content s (min ((s : Int) + m) content.length) (by omega) (by omega)]
  have h1 : min (s : Int) (content.length : Int) = s := by omega
  have h2 : min (min ((s : Int) + m) (content.length : Int)) (content.length : Int)
      = min ((s : Int) + m) (content.length : Int) := by omega
  rw [h1, h2]
  congr 1
  omega

theorem paginationSlice_length (content : JSStr) (s : Nat) (m : Int)
    (hs : s < content.length) (hm : 0 < m) :
    (paginationSlice content s m).length = (min (s + m) (content.length : Int)).toNat - s := by
  rw [paginationSlice_eq content s m hs hm]
  rw [List.length_take, List.length_drop]
  omega

theorem paginationSlice_ne_nil (content : JSStr) (s : Nat) (m : Int)
    (hs : s < content.length) (hm : 0 < m) :
    paginationSlice content s m ≠ [] := by
  intro h
  have := paginationSlice_length content s m hs hm
  rw [h] at this
  simp at this
  omega

/-- Concatenating the paginated slices starting at `s` (with enough fuel)
recovers `content.drop s`. -/
theorem paginate_join (content : JSStr) (m : Int) (hm : 0 < m) :
    ∀ (fuel : Nat) (s : Nat), content.length - s ≤ fuel →
      (paginate content m s fuel).flatten = content.drop s := by
  intro fuel
  induction fuel with
  | zero =>
    intro s hs
    have : content.length ≤ s := by omega
    simp [paginate, List.drop_eq_nil_of_le this]
  | succ fuel ih =>
    intro s hs
    by_cases h : s < content.length
    · have hlen := paginationSlice_length content s m h hm
      have hk : 1 ≤ (min ((s : Int) + m) (content.length : Int)).toNat - s := by omega
      simp only [paginate, h, if_true, List.flatten_cons]
      rw [hlen, ih (s + ((min ((s : Int) + m) (content.length : Int)).toNat - s)) (by omega)]
      rw [paginationSlice_eq content s m h hm]
      rw [← List.drop_drop]
      exact List.take_append_drop _ _
    · simp [paginate, h, List.drop_eq_nil_of_le (by omega : content.length ≤ s)]

/-- C1.  Pagination round-trip: for positive `maxLength`, (a) at every in-range
`startIndex` the formatter's output is exactly the header, the slice
`paginationSlice`, and — when content remains — the continuation notice, and
(b) concatenating the slices obtained by repeatedly advancing `startIndex` by
the previous slice's length (starting from 0) reconstructs the content
exactly. -/
theorem c1_pagination_roundtrip (content : JSStr) (m : Int) (hm : 0 < m) :
    (∀ (url : JSStr) (s : Nat), s < content.length →
      formatDocumentationResult url content s m =
        docHeader url ++ paginationSlice content s m ++
          (if 0 < (content.length : Int) - (s + (paginationSlice content s m).length)
           then truncationNotice (s + (paginationSlice content s m).length) else [])) ∧
    (paginate content m 0 content.length).flatten = content := by
  constructor
  · intro url s hslt
    have hne := paginationSlice_ne_nil content s m hslt hm
    unfold formatDocumentationResult
    have h1 : ¬ ((content.length : Int) ≤ (s : Int)) := by omega
    simp only [h1, if_false]
    have hsl : jsSlice content s (min ((s : Int) + m) content.length)
        = paginationSlice content s m := rfl
    rw [hsl]
    simp only [hne, if_false]
    by_cases h2 : 0 < (content.length : Int) - ((s : Int) + (paginationSlice content s m).length)
    · simp only [h2, if_true, List.append_assoc]
    · simp only [h2, if_false, List.append_nil]
  · have := paginate_join content m hm content.length 0 (by omega)
    simpa using this

/-- C1 witness: evaluating the round-trip on a concrete content string and
`maxLength = 4`. -/
theorem c1_pagination_roundtrip_witness :
    (0 : Int) < 4 ∧
      (paginate "hello world".toList 4 0 "hello world".toList.length).flatten
        = "hello world".toList :=
  ⟨by decide, (c1_pagination_roundtrip "hello world".toList 4 (by decide)).2⟩

/-- C8.  Pagination termination: whenever `startIndex ≥ length content`, the
formatter returns exactly the "no more content" message naming the url — an
output containing no slice of the content (it does not depend on the content at
all). -/
theorem c8_pagination_termination (url content : JSStr) (startIndex maxLength : Int)
    (h : (content.length : Int) ≤ startIndex) :
    formatDocumentationResult url content startIndex maxLength = noMoreContentMessage url := by
  unfold formatDocumentationResult
  simp [h]

/-- C8 witness: a concrete out-of-range start index. -/
theorem c8_pagination_termination_witness :
    ((("abc".toList : JSStr).length : Int) ≤ 3) ∧
      formatDocumentationResult "u".toList "abc".toList 3 100
        = noMoreContentMessage "u".toList :=
  ⟨by decide, c8_pagination_termination "u".toList "abc".toList 3 100 (by decide)⟩

end Utils

namespace Utils
/-! C10 concerns `formatDocumentationResult` when `maxLength <= 0`.  JavaScript
`String.prototype.slice` interprets a negative end index as counting from the
end of the string, so `endIndex = Math.min(startIndex + maxLength,
originalLength)` being negative does NOT always give an empty slice. -/

/-- Length of the slice the formatter computes when `startIndex + maxLength`
is negative but exceeds `-length content`: the JS negative-end normalisation
makes it `content.length + maxLength` long. -/
theorem jsSlice_negStop_length (content : JSStr) (s m : Int)
    (hs : 0 ≤ s) (hlt : s < (content.length : Int))
    (hneg : s + m < 0) (hpos : 0 < (content.length : Int) + m) :
    (((jsSlice content s (s + m)).length : Int)) = (content.length : Int) + m := by
  simp only [jsSlice]
  have h0 : ¬ (s < 0) := by omega
  have h1 : s + m < 0 := hneg
  rw [if_neg h0, if_pos h1]
  have h2 : ¬ (max ((content.length : Int) + (s + m)) 0 ≤ min s (content.length : Int)) := by
    omega
  rw [if_neg h2]
  simp only [List.length_take, List.length_drop]
  omega

/-- C10 counterexample: with content `"0123456789"`, `startIndex = 3` (which is
`>= 0` and `< length`) and `maxLength = -5 <= 0`, the formatter does NOT return
the "No more content available." message: it returns the nonempty slice
`"34567"` with a continuation notice (`start_index=8`), because JS `slice`
treats the negative end index `-2` as `length - 2 = 8`. -/
theorem c10_counterexample :
    (0 : Int) ≤ 3 ∧ (3 : Int) < (("0123456789".toList : JSStr).length : Int) ∧
    (-5 : Int) ≤ 0 ∧
    formatDocumentationResult "u".toList "0123456789".toList 3 (-5)
      = docHeader "u".toList ++ "34567".toList ++ truncationNotice 8 ∧
    formatDocumentationResult "u".toList "0123456789".toList 3 (-5)
      ≠ noMoreContentMessage "u".toList := by
  refine ⟨by decide, by decide, by decide, by decide, by decide⟩

/-- C10 (amended).  For `0 ≤ startIndex < length content` and `maxLength ≤ 0`
the formatter never throws or loops (it is a total function), and:
(a) if `startIndex + maxLength ≥ 0` or `maxLength ≤ -length content`, the slice
is empty and it returns the "No more content available." message;
(b) otherwise (`-length content < maxLength < -startIndex`) it returns a
NONEMPTY slice — `content.slice(startIndex, startIndex + maxLength)` under the
JS negative-end rule — followed by a continuation notice with
`start_index = startIndex + length content + maxLength`. -/
theorem c10_formatter_nonpositive_maxLength (url content : JSStr) (s m : Int)
    (hs : 0 ≤ s) (hlt : s < (content.length : Int)) (hm : m ≤ 0) :
    ((0 ≤ s + m ∨ (content.length : Int) + m ≤ 0) →
        formatDocumentationResult url content s m = noMoreContentMessage url) ∧
    (s + m < 0 → 0 < (content.length : Int) + m →
        formatDocumentationResult url content s m =
          docHeader url ++ jsSlice content s (s + m)
            ++ truncationNotice (s + (content.length : Int) + m)) := by
  have hmin : min (s + m) (content.length : Int) = s + m := by omega
  constructor
  · intro hcase
    unfold formatDocumentationResult
    rw [if_neg (by omega : ¬ ((content.length : Int) ≤ s))]
    have hempty : jsSlice content s (min (s + m) (content.length : Int)) = [] := by
      rw [hmin]
      simp only [jsSlice]
      rw [if_neg (by omega : ¬ (s < 0))]
      rcases hcase with hc | hc
      · rw [if_neg (by omega : ¬ (s + m < 0))]
        rw [if_pos (by omega : min (s + m) (content.length : Int) ≤ min s (content.length : Int))]
      · rw [if_pos (by omega : s + m < 0)]
        rw [if_pos (by omega :
              max ((content.length : Int) + (s + m)) 0 ≤ min s (content.length : Int))]
    rw [hmin] at hempty ⊢
    rw [if_pos hempty]
  · intro hneg hpos
    have hlen := jsSlice_negStop_length content s m hs hlt hneg hpos
    unfold formatDocumentationResult
    rw [if_neg (by omega : ¬ ((content.length : Int) ≤ s))]
    rw [hmin]
    rw [if_neg (by
          intro h
          rw [h] at hlen
          simp at hlen
          omega)]
    rw [if_pos (by rw [hlen]; omega :
          0 < (content.length : Int) - (s + ((jsSlice content s (s + m)).length : Int)))]
    rw [hlen]
    have harg : s + ((content.length : Int) + m) = s + (content.length : Int) + m := by ring
    rw [harg]

/-- C10 amended witness: a concrete instance of case (a), `maxLength = 0`. -/
theorem c10_formatter_nonpositive_maxLength_witness :
    (0 : Int) ≤ 1 ∧ (1 : Int) < (("abc".toList : JSStr).length : Int) ∧ (0 : Int) ≤ 0 ∧
    formatDocumentationResult "u".toList "abc".toList 1 0 = noMoreContentMessage "u".toList :=
  ⟨by decide, by decide, by decide,
    (c10_formatter_nonpositive_maxLength "u".toList "abc".toList 1 0
      (by decide) (by decide) (by decide)).1 (Or.inl (by decide))⟩

end Utils

-- Helper lemmas shared by several claims.

/-- A fold that appends one converted element per step is the accumulator
followed by the mapped list. -/
theorem foldl_append_singleton {α β : Type} (k : α → β) :
    ∀ (l : List α) (acc : List β), l.foldl (fun a x => a ++ [k x]) acc = acc ++ l.map k := by
  intro l
  induction l with
  | nil => intro acc; simp
  | cons x xs ih => intro acc; rw [List.foldl_cons, ih]; simp

/-- A fold whose step appends a per-element block is the accumulator followed
by the concatenated blocks. -/
theorem foldl_block {α β : Type} (g : List β → α → List β) (f : α → List β)
    (h : ∀ (acc : List β) (x : α), g acc x = acc ++ f x) :
    ∀ (l : List α) (acc : List β), l.foldl g acc = acc ++ l.flatMap f := by
  intro l
  induction l with
  | nil => intro acc; simp
  | cons x xs ih => intro acc; rw [List.foldl_cons, h, ih, List.flatMap_cons, List.append_assoc]

/-- One journey step appends exactly that group's block. -/
theorem journeyFold_eq (acc : List Utils.RecommendationResult) (g : Utils.IntentGroup) :
    Utils.journeyFold acc g = acc ++ Utils.journeyBlock g := by
  unfold Utils.journeyFold Utils.journeyBlock
  cases hu : g.urls with
  | some urls => simp only [hu]; rw [foldl_append_singleton]
  | none => simp [hu]

/-- `jsIncludes` is complete for substring containment: any infix of the
haystack is found. -/
theorem jsIncludes_of_substring (needle hay : JSStr) (h : needle <:+: hay) :
    jsIncludes hay needle = true := by
  obtain ⟨s, t, rfl⟩ := h
  unfold jsIncludes
  induction s with
  | nil =>
    have hpre : needle.isPrefixOf (needle ++ t) = true := by
      rw [List.isPrefixOf_iff_prefix]
      exact ⟨t, rfl⟩
    simp only [List.nil_append]
    cases hnt : needle ++ t with
    | nil =>
      have hn : needle = [] := (List.append_eq_nil.mp hnt).1
      simp [jsIncludesAux, hn, List.isPrefixOf]
    | cons c t' =>
      rw [hnt] at hpre
      simp [jsIncludesAux, hpre]
  | cons c s' ih =>
    have hstep : jsIncludesAux needle ((c :: s') ++ needle ++ t)
        = (needle.isPrefixOf ((c :: s') ++ needle ++ t)
            || jsIncludesAux needle (s' ++ needle ++ t)) := rfl
    rw [hstep, ih, Bool.or_true]

namespace Utils

/-- C7.  Content Extractor error handling: (a) whenever the regex strategy's
transformation pipeline yields an empty or shorter-than-10-characters text,
`extractWithRegex` returns the diagnostic placeholder string instead; (b) the
empty HTML input gets its own placeholder in every environment; (c) with
jsdom/turndown unavailable, or with jsdom throwing, the extractor is the
(total, guarded) regex strategy; (d) but on the jsdom strategy's success path
the converted markdown is returned after only the newline collapse and trim —
no length guard — so a short result passes through unreplaced.  No path raises:
every case returns a string. -/
theorem c7_content_empty_guard :
    (∀ html : JSStr,
      (extractPipeline html = [] ∨ (extractPipeline html).length < 10) →
        extractWithRegex html = "<e>Page failed to be simplified from HTML</e>".toList) ∧
    (∀ env : JsdomEnv, extractContentFromHtml [] env = "<e>Empty HTML content</e>".toList) ∧
    (∀ (html : JSStr) (run : JsdomRun), html ≠ [] →
      extractContentFromHtml html ⟨false, run⟩ = extractWithRegex html ∧
      extractContentFromHtml html ⟨true, .throws⟩ = extractWithRegex html) ∧
    (∀ (html markdown : JSStr), html ≠ [] →
      extractContentFromHtml html ⟨true, .converts markdown⟩
        = jsTrim (collapseTripleNl markdown)) := by
  refine ⟨?_, fun env => rfl, ?_, ?_⟩
  · intro html h
    unfold extractWithRegex
    rw [if_pos h]
  · intro html run h
    have hfalse : ¬ ((⟨false, run⟩ : JsdomEnv).available = true) := by simp
    have htrue : ((⟨true, JsdomRun.throws⟩ : JsdomEnv).available = true) := rfl
    constructor
    · unfold extractContentFromHtml
      rw [if_neg h, if_neg hfalse]
    · unfold extractContentFromHtml
      rw [if_neg h, if_pos htrue]
      rfl
  · intro html markdown h
    have htrue : ((⟨true, JsdomRun.converts markdown⟩ : JsdomEnv).available = true) := rfl
    unfold extractContentFromHtml
    rw [if_neg h, if_pos htrue]
    rfl

/-- C7 witness: with the regex strategy, `"<p>hi</p>"` strips down to `"hi"`
(2 characters) and the placeholder is returned; with the jsdom strategy, the
same input converted by turndown to `"hi"` is returned as-is. -/
theorem c7_content_empty_guard_witness :
    (extractPipeline "<p>hi</p>".toList = [] ∨ (extractPipeline "<p>hi</p>".toList).length < 10) ∧
    extractWithRegex "<p>hi</p>".toList = "<e>Page failed to be simplified from HTML</e>".toList ∧
    ("<p>hi</p>".toList : JSStr) ≠ [] ∧
    extractContentFromHtml "<p>hi</p>".toList ⟨false, .throws⟩
      = extractWithRegex "<p>hi</p>".toList ∧
    extractContentFromHtml "<p>hi</p>".toList ⟨true, .converts "hi".toList⟩
      = jsTrim (collapseTripleNl "hi".toList) :=
  ⟨by decide, c7_content_empty_guard.1 _ (by decide), by decide,
    (c7_content_empty_guard.2.2.1 _ JsdomRun.throws (by decide)).1,
    c7_content_empty_guard.2.2.2 _ _ (by decide)⟩

/-- C7 counterexample: with jsdom/turndown available (the Node.js runtime) and
turndown converting `"<p>hi</p>"` to `"hi"`, the extractor returns the
2-character text `"hi"` itself — shorter than 10 characters and not any of the
three diagnostic placeholders.  The empty/short-content guard exists only in
the regex strategy (`extractWithRegex`); `extractWithJSDOM` has none. -/
theorem c7_counterexample :
    extractContentFromHtml "<p>hi</p>".toList ⟨true, .converts "hi".toList⟩ = "hi".toList ∧
    ("hi".toList : JSStr).length < 10 ∧
    ("hi".toList : JSStr) ≠ "<e>Page failed to be simplified from HTML</e>".toList ∧
    ("hi".toList : JSStr) ≠ "<e>Empty HTML content</e>".toList ∧
    ("hi".toList : JSStr) ≠ "<e>No main content found</e>".toList :=
  ⟨by decide, by decide, by decide, by decide, by decide⟩

/-- C5 counterexample: with upstream buckets highly-rated = [A, B],
journey = [C], new = [D], similar = [E] and `max_results = 3`, the merged
list `parseRecommendationResults` produces has all FIVE items (no truncation),
and the `recommend` implementation (`getRecommendationsImpl`) does not even
consult the buckets: on a successful response it returns the fixed
placeholder list, not [A, B, C]. -/
theorem c5_counterexample :
    parseRecommendationResults
      ⟨some [⟨some "https://a".toList, some "A".toList, none⟩,
             ⟨some "https://b".toList, some "B".toList, none⟩],
       some [⟨none, some [⟨some "https://c".toList, some "C".toList⟩]⟩],
       some [⟨some "https://d".toList, some "D".toList, none⟩],
       some [⟨some "https://e".toList, some "E".toList, none⟩]⟩
      = [⟨"https://a".toList, "A".toList, none⟩,
         ⟨"https://b".toList, "B".toList, none⟩,
         ⟨"https://c".toList, "C".toList, none⟩,
         ⟨"https://d".toList, "D".toList, some "New content".toList⟩,
         ⟨"https://e".toList, "E".toList, some "Similar content".toList⟩] ∧
    ServerUtils.getRecommendationsImpl "c".toList 3
      (.resp true 200
        ⟨some [⟨some "https://a".toList, some "A".toList, none⟩,
               ⟨some "https://b".toList, some "B".toList, none⟩],
         some [⟨none, some [⟨some "https://c".toList, some "C".toList⟩]⟩],
         some [⟨some "https://d".toList, some "D".toList, none⟩],
         some [⟨some "https://e".toList, some "E".toList, none⟩]⟩)
      = ServerUtils.okRecsPlaceholder ∧
    ServerUtils.okRecsPlaceholder.map (fun r => r.title)
      ≠ ["A".toList, "B".toList, "C".toList] :=
  ⟨by decide, by decide, by decide⟩

/-- C5 (amended).  `parseRecommendationResults` merges the up-to-four upstream
categories in the fixed order highly-rated, journey, new, similar, with each
category's items in the upstream's given order — but it performs NO truncation
to `max_results`; and the `recommend` implementation never invokes it: on any
successful upstream response `getRecommendationsImpl` returns the fixed
one-item placeholder list regardless of the buckets or of `max_results`. -/
theorem c5_recommendation_merge (data : RecommendationData) :
    parseRecommendationResults data
      = (itemsOf data.highlyRated).map ratedToRec
        ++ (itemsOf data.journey).flatMap journeyBlock
        ++ (itemsOf data.newContent).map newToRec
        ++ (itemsOf data.similar).map similarToRec ∧
    (∀ (content : JSStr) (maxResults status : Int) (body : RecommendationData),
      ServerUtils.getRecommendationsImpl content maxResults (.resp true status body)
        = ServerUtils.okRecsPlaceholder) := by
  constructor
  · simp only [parseRecommendationResults]
    rw [foldl_append_singleton ratedToRec]
    rw [foldl_block journeyFold journeyBlock journeyFold_eq]
    rw [foldl_append_singleton newToRec]
    rw [foldl_append_singleton similarToRec]
    simp [List.append_assoc]
  · intro content maxResults status body
    rfl

end Utils

namespace ServerUtils

/-- C2 counterexample: a non-success upstream status (HTTP 500) is NOT
converted into a tool-level error result — `searchDocumentationImpl` returns
the two hard-coded mock results and the tool result's `isError` flag stays
`false`; likewise for `recommend`, whose implementation returns the two mock
recommendations. -/
theorem c2_counterexample :
    searchDocumentationImpl "s3".toList 10 0 (.resp false 500 .unrecognized)
      = mockSearchStatusResults "s3".toList ∧
    (IndexTs.searchTool "s3".toList 10 0 (.resp false 500 .unrecognized)).isError = false ∧
    getRecommendationsImpl "vpc".toList 5 (.resp false 500 ⟨none, none, none, none⟩)
      = mockRecsStatusResults ∧
    (IndexTs.recommendTool "vpc".toList 5 (.resp false 500 ⟨none, none, none, none⟩)).isError
      = false :=
  ⟨by decide, by decide, by decide, by decide⟩

/-- C2 (amended).  Upstream failures never propagate as exceptions: every
failure outcome (thrown fetch/timeout/parse error, or non-success status) is
caught and converted into an ordinary return value — the fixed mock result
lists for `search_documentation` and `recommend`, and a plain error-message
string for `read_documentation` — and the index.ts tool handlers never set
`isError` because of an upstream failure (`search`/`recommend` never set it at
all; `read_documentation` sets it only in the URL guard, independently of the
fetch outcome). -/
theorem c2_upstream_failure_handling :
    (∀ (query msg : JSStr) (maxResults startIndex status : Int) (body : SearchBody),
      searchDocumentationImpl query maxResults startIndex (.exn msg)
          = mockSearchCatchResults query ∧
      searchDocumentationImpl query maxResults startIndex (.resp false status body)
          = mockSearchStatusResults query) ∧
    (∀ (content msg : JSStr) (maxResults status : Int) (body : Utils.RecommendationData),
      getRecommendationsImpl content maxResults (.exn msg) = mockRecsCatchResults ∧
      getRecommendationsImpl content maxResults (.resp false status body)
          = mockRecsStatusResults) ∧
    (∀ (url msg pageRaw contentType : JSStr) (maxLength startIndex status : Int)
        (env : Utils.JsdomEnv),
      readDocumentationImpl url maxLength startIndex (.exn msg) env
          = "Failed to fetch ".toList ++ url ++ ": ".toList ++ msg ∧
      readDocumentationImpl url maxLength startIndex (.resp false status pageRaw contentType) env
          = "Failed to fetch ".toList ++ url ++ " - status code ".toList
              ++ (toString status).toList) ∧
    (∀ (query : JSStr) (maxResults startIndex : Int) (o : SearchFetchOutcome),
      (IndexTs.searchTool query maxResults startIndex o).isError = false) ∧
    (∀ (content : JSStr) (maxResults : Int) (o : RecFetchOutcome),
      (IndexTs.recommendTool content maxResults o).isError = false) ∧
    (∀ (url : JSStr) (maxLength startIndex : Int) (o o2 : DocFetchOutcome)
        (env env2 : Utils.JsdomEnv),
      (IndexTs.readDocumentationTool url maxLength startIndex o env).isError
        = (IndexTs.readDocumentationTool url maxLength startIndex o2 env2).isError) := by
  refine ⟨fun query msg mr si st body => ⟨rfl, rfl⟩,
          fun content msg mr st body => ⟨rfl, rfl⟩,
          fun url msg pr ct ml si st env => ⟨rfl, rfl⟩,
          fun query mr si o => rfl,
          fun content mr o => rfl,
          fun url ml si o o2 env env2 => ?_⟩
  unfold IndexTs.readDocumentationTool
  by_cases h : IndexTs.awsDocsUrlAccepted url
  · simp [h]
  · simp [h]

end ServerUtils

namespace IndexTs

/-- C3.  URL domain guard: `read_documentation` with
`url = "https://example.com/page.html"` fails the guard, the handler returns
the `InvalidUrl` tool-level error (`isError = true`), and the result is the
same for EVERY fetch outcome — the guard returns before the fetch, so no
network fetch is performed. -/
theorem c3_url_domain_guard :
    awsDocsUrlAccepted "https://example.com/page.html".toList = false ∧
    invalidUrlResult.isError = true ∧
    (∀ (maxLength startIndex : Int) (outcome : ServerUtils.DocFetchOutcome)
        (env : Utils.JsdomEnv),
      readDocumentationTool "https://example.com/page.html".toList maxLength startIndex
          outcome env
        = invalidUrlResult) := by
  exact ⟨by decide, rfl, fun maxLength startIndex outcome env => rfl⟩

/-- C9.  The URL guard is substring containment, not a host check: every url
containing `"docs.aws.amazon.com"` anywhere is accepted and handed to the
fetch path — in particular `"https://evil.example/docs.aws.amazon.com"`,
where the substring sits in the path of a non-AWS host. -/
theorem c9_substring_guard :
    (∀ url : JSStr, "docs.aws.amazon.com".toList <:+: url →
      awsDocsUrlAccepted url = true ∧
      (∀ (maxLength startIndex : Int) (outcome : ServerUtils.DocFetchOutcome)
          (env : Utils.JsdomEnv),
        readDocumentationTool url maxLength startIndex outcome env
          = ⟨ServerUtils.readDocumentationImpl url maxLength startIndex outcome env,
             false⟩)) ∧
    awsDocsUrlAccepted "https://evil.example/docs.aws.amazon.com".toList = true := by
  constructor
  · intro url hinf
    have hacc : awsDocsUrlAccepted url = true := by
      unfold awsDocsUrlAccepted
      rw [jsIncludes_of_substring _ _ hinf, Bool.true_or]
    refine ⟨hacc, fun maxLength startIndex outcome env => ?_⟩
    simp [readDocumentationTool, hacc]
  · decide

/-- C9 witness: the adversarial url, with an explicit infix decomposition,
accepted and fetched (here with a timeout outcome). -/
theorem c9_substring_guard_witness :
    ("docs.aws.amazon.com".toList <:+: "https://evil.example/docs.aws.amazon.com".toList) ∧
    awsDocsUrlAccepted "https://evil.example/docs.aws.amazon.com".toList = true ∧
    readDocumentationTool "https://evil.example/docs.aws.amazon.com".toList 100 0
        (.exn "timeout".toList) ⟨false, .throws⟩
      = ⟨ServerUtils.readDocumentationImpl "https://evil.example/docs.aws.amazon.com".toList 100 0
          (.exn "timeout".toList) ⟨false, .throws⟩, false⟩ := by
  have hinf : "docs.aws.amazon.com".toList
      <:+: "https://evil.example/docs.aws.amazon.com".toList :=
    ⟨"https://evil.example/".toList, [], by decide⟩
  exact ⟨hinf, (c9_substring_guard.1 _ hinf).1, (c9_substring_guard.1 _ hinf).2 100 0 _ _⟩

end IndexTs

namespace McpServerJs

/-- C4 counterexample: on the Streamable-HTTP transport (`/mcp` POST in
transports.ts), the request `{"jsonrpc":"2.0","id":1,"method":"tools/list"}`
does NOT return the three tool names — it returns a `-32601` MethodNotFound
error. -/
theorem c4_counterexample :
    Transports.mcpPostHandler ⟨some "2.0".toList, some (.num 1), some "tools/list".toList, none⟩
      = .error (some (.num 1)) (-32601) "Method not found".toList
          (some "Method tools/list not implemented in simplified transport".toList) := by
  decide

/-- C4 (amended).  The Dispatcher (`McpServer.handleRequest`) answers
`tools/list` with exactly the three tool definitions, whose names are
`read_documentation`, `search_documentation`, `recommend` and no others,
independently of id, params and tool environment; but the simplified
`/mcp` and `/messages` endpoints of transports.ts do not route `tools/list`
through the Dispatcher and answer it with MethodNotFound (-32601). -/
theorem c4_tools_list_routing :
    (∀ (env : FetchEnv) (id : Option Json) (params : Option ToolCallParams),
      handleRequest ⟨some "2.0".toList, id, some "tools/list".toList, params⟩ env
        = .success id (.toolsList tools)) ∧
    tools.map (fun t => t.name)
      = ["read_documentation".toList, "search_documentation".toList, "recommend".toList] ∧
    (∀ (jr : Option JSStr) (id : Option Json) (params : Option ToolCallParams),
      Transports.mcpPostHandler ⟨jr, id, some "tools/list".toList, params⟩
        = .error id (-32601) "Method not found".toList
            (some "Method tools/list not implemented in simplified transport".toList)) ∧
    (∀ (jr : Option JSStr) (id : Option Json) (params : Option ToolCallParams),
      Transports.messagesHandler true ⟨jr, id, some "tools/list".toList, params⟩
        = .rpc (.error id (-32601) "Method not found".toList
            (some "Method tools/list not implemented yet".toList))) := by
  refine ⟨fun env id params => rfl, rfl, fun jr id params => rfl, fun jr id params => rfl⟩

/-- C6.  Invalid envelope: whenever the `jsonrpc` field is missing or differs
from `"2.0"`, the Dispatcher returns a JSON-RPC error with code `-32600`,
whatever the method, id, params and tool environment. -/
theorem c6_invalid_envelope (req : RpcRequest) (env : FetchEnv)
    (h : req.jsonrpc ≠ some "2.0".toList) :
    handleRequest req env
      = .error req.id (-32600) "Invalid Request: jsonrpc must be 2.0".toList none := by
  unfold handleRequest
  rw [if_pos h]

/-- C6 witness: the spec's example `{"method":"tools/list"}` (missing
`jsonrpc`) yields `-32600`. -/
theorem c6_invalid_envelope_witness :
    ((⟨none, none, some "tools/list".toList, none⟩ : RpcRequest).jsonrpc
        ≠ some "2.0".toList) ∧
    handleRequest ⟨none, none, some "tools/list".toList, none⟩
        ⟨.exn [], .exn [], .exn []⟩
      = .error none (-32600) "Invalid Request: jsonrpc must be 2.0".toList none :=
  ⟨by decide, c6_invalid_envelope _ _ (by decide)⟩

end McpServerJs
